import Mathlib

/-!
Shallow embedding of `src/gpio_pmtiles/plugin.py`.

The module under verification is:

```python
  def register_commands(cli_group):
      cli_group.add_command(pmtiles)
```

(preceded by the two module-level lines bringing `click` and
`gpio_pmtiles.cli.pmtiles` into scope).

A Click `Group` keeps its subcommands in a Python `dict[str, Command]`
(`self.commands`); `Group.add_command(cmd, name=None)` computes
`name = name or cmd.name`, raises `TypeError("Command has no name.")` when the
resulting name is `None`, and otherwise performs the dict assignment
`self.commands[name] = cmd` (silent replacement on a duplicate key).

We embed the mutable group by explicit state passing: the `commands` dict is an
insertion-ordered association list with no duplicate keys (that nodup-keys
condition is the representation invariant of a Python dict), dict assignment is
`dictSet`, and a Python call that may raise becomes `Except String`.  A Python
function that falls off the end returns `None`; we model that return value as
`Unit`, so a successful call yields `Except.ok ((), g')` where `g'` is the
post-state of the group.
-/

/-- A Click command object: its declared `name` attribute (`Optional[str]` in
Click) together with an opaque payload standing for the rest of the object
(callback, params, help text, ...), which the registrar never touches. -/
structure Command where
  name : Option String
  payload : Nat
deriving DecidableEq

/-- A Click command group, reduced to the state the registrar can affect: its
`commands` dict, embedded as an insertion-ordered association list. -/
structure CliGroup where
  commands : List (String × Command)
deriving DecidableEq

/-- Python dict assignment `d[k] = v`: replace the value in place when the key
is already present (keeping its position), otherwise append the new entry. -/
def dictSet (d : List (String × Command)) (k : String) (v : Command) :
    List (String × Command) :=
  match d with
  | [] => [(k, v)]
  | (k', v') :: rest =>
      if k' = k then (k, v) :: rest else (k', v') :: dictSet rest k v

/-- Python dict lookup `d[k]` (as an `Option`, i.e. `d.get(k)`). -/
def lookupKey (d : List (String × Command)) (k : String) : Option Command :=
  match d with
  | [] => none
  | (k', v') :: rest => if k' = k then some v' else lookupKey rest k

/-- Number of entries of the association list carrying the key `k`.  For a
well-formed dict this is 0 or 1. -/
def countKey (d : List (String × Command)) (k : String) : Nat :=
  match d with
  | [] => 0
  | (k', _) :: rest => (if k' = k then 1 else 0) + countKey rest k

/-- Python `a or b` restricted to `Optional[str]` operands: `None` and the
empty string are falsy. -/
def pyOr (a b : Option String) : Option String :=
  match a with
  | none => b
  | some s => if s = "" then b else some s

/-- Click's `Group.add_command(cmd, name=None)`, the host operation the
registrar delegates to: `name = name or cmd.name`; raise
`TypeError("Command has no name.")` when that is `None`; otherwise perform the
dict assignment `self.commands[name] = cmd` and return `None`. -/
def add_command (g : CliGroup) (cmd : Command) (nameArg : Option String) :
    Except String (Unit × CliGroup) :=
  match pyOr nameArg cmd.name with
  | none => Except.error "Command has no name."
  | some n => Except.ok ((), { commands := dictSet g.commands n cmd })

/-- Modelled from the spec: the `pmtiles` command object comes from
`gpio_pmtiles.cli`, a module of this repository that is not part of the
supplied source.  The spec describes it as "a fully-formed command object
(`pmtiles`)" registered "under its own declared name", the name `pmtiles`; so
we model it as a fixed Click command whose declared name is `"pmtiles"`, with
an opaque payload for its unspecified behaviour. -/
def pmtiles : Command :=
  { name := some "pmtiles", payload := 0 }

/-- The registrar of `src/gpio_pmtiles/plugin.py`: a single delegation to the
host's `add_command` with no name override, returning `None`.  In the
state-passing embedding it maps the group's pre-state to the call's outcome. -/
def register_commands (cli_group : CliGroup) : Except String (Unit × CliGroup) :=
  add_command cli_group pmtiles none

/-! Helper lemmas about the dict model. -/

/-- Evaluating the registrar: it always succeeds, returns `None`, and its whole
effect on the group is the single dict assignment at key `"pmtiles"`. -/
theorem register_commands_eq (g : CliGroup) :
    register_commands g =
      Except.ok ((), { commands := dictSet g.commands "pmtiles" pmtiles }) := rfl

/-- After `d[k] = v`, looking up `k` yields `v`. -/
theorem lookupKey_dictSet_self (d : List (String × Command)) (k : String)
    (v : Command) : lookupKey (dictSet d k v) k = some v := by
  induction d with
  | nil => simp [dictSet, lookupKey]
  | cons p rest ih =>
      obtain ⟨k', v'⟩ := p
      by_cases h : k' = k
      · simp [dictSet, lookupKey, h]
      · simp [dictSet, lookupKey, h, ih]

/-- After `d[k] = v`, looking up any other key is unchanged. -/
theorem lookupKey_dictSet_ne (d : List (String × Command)) (k k' : String)
    (v : Command) (h : k' ≠ k) :
    lookupKey (dictSet d k v) k' = lookupKey d k' := by
  have hkk : ¬k = k' := fun e => h e.symm
  induction d with
  | nil => simp [dictSet, lookupKey, hkk]
  | cons p rest ih =>
      obtain ⟨k₀, v₀⟩ := p
      by_cases hk : k₀ = k
      · subst hk
        simp [dictSet, lookupKey, hkk]
      · simp [dictSet, lookupKey, hk, ih]

/-- A key that occurs in no entry has count 0. -/
theorem countKey_of_not_mem (d : List (String × Command)) (k : String)
    (h : k ∉ d.map Prod.fst) : countKey d k = 0 := by
  induction d with
  | nil => rfl
  | cons p rest ih =>
      obtain ⟨k', v'⟩ := p
      simp only [List.map_cons, List.mem_cons] at h
      push_neg at h
      have hne : ¬k' = k := fun e => h.1 e.symm
      simp [countKey, hne, ih h.2]

/-- On a well-formed dict (no duplicate keys), after `d[k] = v` the key `k`
occurs exactly once. -/
theorem countKey_dictSet (d : List (String × Command)) (k : String)
    (v : Command) (h : (d.map Prod.fst).Nodup) :
    countKey (dictSet d k v) k = 1 := by
  induction d with
  | nil => simp [dictSet, countKey]
  | cons p rest ih =>
      obtain ⟨k', v'⟩ := p
      simp only [List.map_cons, List.nodup_cons] at h
      by_cases hk : k' = k
      · subst hk
        simp [dictSet, countKey, countKey_of_not_mem rest k' h.1]
      · simp [dictSet, countKey, hk, ih h.2]

/-- Dict assignment of the same key/value pair twice equals doing it once. -/
theorem dictSet_dictSet_same (d : List (String × Command)) (k : String)
    (v : Command) : dictSet (dictSet d k v) k v = dictSet d k v := by
  induction d with
  | nil => simp [dictSet]
  | cons p rest ih =>
      obtain ⟨k', v'⟩ := p
      by_cases hk : k' = k
      · simp [dictSet, hk]
      · simp [dictSet, hk, ih]

/-! Claim theorems. -/

/-- C1: for every fresh command-group containing zero commands, after calling
`register_commands` on it the call succeeds and the group contains exactly one
command, registered under the name `pmtiles` (namely the `pmtiles` command
object itself). -/
theorem C1_fresh_group_gets_exactly_pmtiles (g : CliGroup)
    (h : g.commands = []) :
    register_commands g = Except.ok ((), { commands := [("pmtiles", pmtiles)] }) := by
  obtain ⟨cs⟩ := g
  simp only at h
  subst h
  rfl

/-- Witness for C1 at the concrete empty group. -/
theorem C1_fresh_group_gets_exactly_pmtiles_witness :
    register_commands { commands := [] } =
      Except.ok ((), { commands := [("pmtiles", pmtiles)] }) :=
  C1_fresh_group_gets_exactly_pmtiles { commands := [] } rfl

/-- C2: for every command-group (any well-formed dict state, including one
that already holds a `pmtiles` entry), after `register_commands` returns
normally the group's dict holds the key `pmtiles` exactly once.  The
`Nodup` hypothesis is the representation invariant of a Python dict, which
cannot hold a duplicate key. -/
theorem C2_pmtiles_entry_exactly_once (g : CliGroup)
    (hnd : (g.commands.map Prod.fst).Nodup) (g' : CliGroup)
    (h : register_commands g = Except.ok ((), g')) :
    countKey g'.commands "pmtiles" = 1 := by
  rw [register_commands_eq] at h
  obtain rfl : g' = { commands := dictSet g.commands "pmtiles" pmtiles } := by
    cases Except.ok.inj h
    rfl
  exact countKey_dictSet g.commands "pmtiles" pmtiles hnd

/-- Witness for C2 at a concrete group that already holds a different command
object under the name `pmtiles` and one other command. -/
theorem C2_pmtiles_entry_exactly_once_witness :
    countKey
      (CliGroup.mk
        (dictSet
          [("pmtiles", Command.mk (some "pmtiles") 7),
           ("meta", Command.mk (some "meta") 3)] "pmtiles" pmtiles)).commands
      "pmtiles" = 1 :=
  C2_pmtiles_entry_exactly_once
    { commands := [("pmtiles", Command.mk (some "pmtiles") 7),
                   ("meta", Command.mk (some "meta") 3)] }
    (by decide)
    { commands := dictSet
        [("pmtiles", Command.mk (some "pmtiles") 7),
         ("meta", Command.mk (some "meta") 3)] "pmtiles" pmtiles }
    rfl

/-- C3: after a first successful call, a second call on the resulting group is
exactly the host's `add_command` (the registrar adds no behaviour of its own),
and the host's defined duplicate handling here is an idempotent replace that
succeeds rather than erroring. -/
theorem C3_second_call_is_host_duplicate_handling (g g₁ : CliGroup)
    (h : register_commands g = Except.ok ((), g₁)) :
    register_commands g₁ = add_command g₁ pmtiles none ∧
      ∃ g₂, add_command g₁ pmtiles none = Except.ok ((), g₂) := by
  refine ⟨rfl, ⟨{ commands := dictSet g₁.commands "pmtiles" pmtiles }, rfl⟩⟩

/-- Witness for C3: apply it after a first registration on a concrete group. -/
theorem C3_second_call_is_host_duplicate_handling_witness :
    register_commands { commands := [("pmtiles", pmtiles)] } =
        add_command { commands := [("pmtiles", pmtiles)] } pmtiles none ∧
      ∃ g₂, add_command { commands := [("pmtiles", pmtiles)] } pmtiles none =
        Except.ok ((), g₂) :=
  C3_second_call_is_host_duplicate_handling { commands := [] }
    { commands := [("pmtiles", pmtiles)] } rfl

/-- C4: the registrar's whole effect is a single dict insertion of the
externally supplied `pmtiles` command object into the passed-in group, under
that command object's own declared name (the `add_command` call passes no name
override, so the key is `pmtiles.name`); being a pure function of the group's
pre-state, it touches no other state. -/
theorem C4_single_insertion_under_own_name (g : CliGroup) :
    pmtiles.name = some "pmtiles" ∧
      register_commands g =
        Except.ok ((), { commands := dictSet g.commands "pmtiles" pmtiles }) :=
  ⟨rfl, register_commands_eq g⟩

/-- C5: the registrar has no error path of its own: it errors exactly when the
delegated host `add_command` call errors, with the very same error value. -/
theorem C5_errors_exactly_the_hosts (g : CliGroup) (e : String) :
    register_commands g = Except.error e ↔
      add_command g pmtiles none = Except.error e :=
  Iff.rfl

/-- C6: for every input group the registrar returns normally with no
consumable value — the success payload is the unit value `()` (Python's
`None`), the group's post-state being the only other component. -/
theorem C6_returns_no_value (g : CliGroup) :
    ∃ g', register_commands g = Except.ok ((), g') :=
  ⟨{ commands := dictSet g.commands "pmtiles" pmtiles }, register_commands_eq g⟩

/-- C7: whenever `register_commands` returns without error, the registration
succeeded: the `pmtiles` command object is present in the group under the key
`pmtiles`. -/
theorem C7_normal_return_means_registered (g : CliGroup) (u : Unit)
    (g' : CliGroup) (h : register_commands g = Except.ok (u, g')) :
    lookupKey g'.commands "pmtiles" = some pmtiles := by
  rw [register_commands_eq] at h
  obtain rfl : g' = { commands := dictSet g.commands "pmtiles" pmtiles } := by
    cases Except.ok.inj h
    rfl
  exact lookupKey_dictSet_self g.commands "pmtiles" pmtiles

/-- Witness for C7 at a concrete nonempty group. -/
theorem C7_normal_return_means_registered_witness :
    lookupKey
      (CliGroup.mk
        (dictSet [("convert", Command.mk (some "convert") 5)] "pmtiles"
          pmtiles)).commands "pmtiles" = some pmtiles :=
  C7_normal_return_means_registered
    { commands := [("convert", Command.mk (some "convert") 5)] } ()
    { commands := dictSet [("convert", Command.mk (some "convert") 5)]
        "pmtiles" pmtiles }
    rfl

/-- C8: every command registered under a name other than `pmtiles` before the
call is still registered under the same name, unchanged, after the call. -/
theorem C8_other_entries_preserved (g : CliGroup) (n : String) (c : Command)
    (hn : n ≠ "pmtiles") (hc : lookupKey g.commands n = some c)
    (g' : CliGroup) (h : register_commands g = Except.ok ((), g')) :
    lookupKey g'.commands n = some c := by
  rw [register_commands_eq] at h
  obtain rfl : g' = { commands := dictSet g.commands "pmtiles" pmtiles } := by
    cases Except.ok.inj h
    rfl
  rw [lookupKey_dictSet_ne g.commands "pmtiles" n pmtiles hn]
  exact hc

/-- Witness for C8 at a concrete group holding a `meta` command. -/
theorem C8_other_entries_preserved_witness :
    lookupKey
      (CliGroup.mk
        (dictSet [("meta", Command.mk (some "meta") 9)] "pmtiles"
          pmtiles)).commands "meta" = some (Command.mk (some "meta") 9) :=
  C8_other_entries_preserved
    { commands := [("meta", Command.mk (some "meta") 9)] } "meta"
    (Command.mk (some "meta") 9) (by decide) rfl
    { commands := dictSet [("meta", Command.mk (some "meta") 9)] "pmtiles"
        pmtiles }
    rfl

/-- C9: calling the registrar twice in succession leaves the group in exactly
the state produced by one call: the second insertion replaces the entry under
the same key, neither erroring nor duplicating. -/
theorem C9_idempotent (g g₁ : CliGroup)
    (h : register_commands g = Except.ok ((), g₁)) :
    register_commands g₁ = Except.ok ((), g₁) := by
  rw [register_commands_eq] at h
  obtain rfl : g₁ = { commands := dictSet g.commands "pmtiles" pmtiles } := by
    cases Except.ok.inj h
    rfl
  rw [register_commands_eq]
  simp [dictSet_dictSet_same]

/-- Witness for C9 after a first registration on the concrete empty group. -/
theorem C9_idempotent_witness :
    register_commands { commands := [("pmtiles", pmtiles)] } =
      Except.ok ((), { commands := [("pmtiles", pmtiles)] }) :=
  C9_idempotent { commands := [] } { commands := [("pmtiles", pmtiles)] } rfl

/-- C10: the registrar is deterministic and depends only on the passed-in
group's command dict (and the fixed `pmtiles` object): equal dict states give
equal outcomes. -/
theorem C10_deterministic (g₁ g₂ : CliGroup)
    (h : g₁.commands = g₂.commands) :
    register_commands g₁ = register_commands g₂ := by
  obtain ⟨c₁⟩ := g₁
  obtain ⟨c₂⟩ := g₂
  simp only at h
  subst h
  rfl

/-- Witness for C10 at two syntactically distinct but equal-state groups. -/
theorem C10_deterministic_witness :
    register_commands { commands := [("meta", Command.mk (some "meta") 3)] } =
      register_commands
        { commands := [("meta", Command.mk (some "meta") 3)] } :=
  C10_deterministic { commands := [("meta", Command.mk (some "meta") 3)] }
    { commands := [("meta", Command.mk (some "meta") 3)] } rfl
